import Mathlib

/-!
Verification development for the forex-tester chart core
(`src/renderer.ts`, `src/chart.ts`, `src/dataLoader.ts`).

Numbers that the TypeScript code manipulates as IEEE doubles are modelled
as exact rationals (`ℚ`); equalities proved here are exact, hence hold a
fortiori "within floating-point tolerance".  A second model (`JSNum`)
extends `ℚ` with the non-finite values `NaN`, `Infinity`, `-Infinity` and
is used for the claims that are about non-finite propagation.
-/

namespace ForexChart

/-! ## Data model: bars (src/types.ts) -/

/-- One OHLC bar plus tick volume, as produced by the data loader. -/
structure Bar where
  Time : ℤ
  Open : ℚ
  High : ℚ
  Low : ℚ
  Close : ℚ
  TickVolume : ℚ
deriving DecidableEq, Repr

/-! ## Viewport (class Viewport, src/renderer.ts lines 320-345) -/

/-- Viewport state: `offsetIndex`, `barWidth`, `spacing`, `maxBarWidth`,
`visibleCount`, mirroring the public fields of `class Viewport`. -/
structure Viewport where
  offsetIndex : ℚ
  barWidth : ℚ
  spacing : ℚ
  maxBarWidth : ℚ
  visibleCount : ℚ
deriving DecidableEq, Repr

/-- Field defaults of `new Viewport(visibleCount)`:
`offsetIndex = 0, barWidth = 6, spacing = 1, maxBarWidth = 20`. -/
def Viewport.init (visibleCount : ℚ) : Viewport :=
  { offsetIndex := 0
    barWidth := 6
    spacing := 1
    maxBarWidth := 20
    visibleCount := visibleCount }

/-- `Viewport.zoomAt(mouseX, zoomFactor)` (renderer.ts lines 330-338):
computes the logical index under the pivot, clamps the scaled bar width to
`[1, maxBarWidth]`, no-ops when the width change is below `0.01`, and
otherwise recomputes `offsetIndex`, clamped to `≥ 0`. -/
def Viewport.zoomAt (v : Viewport) (mouseX zoomFactor : ℚ) : Viewport :=
  let centerIndexFloat := v.offsetIndex + mouseX / (v.barWidth + v.spacing)
  let newBarWidth := max 1 (min v.maxBarWidth (v.barWidth * zoomFactor))
  if |newBarWidth - v.barWidth| < 1 / 100 then v
  else
    let newOffset := centerIndexFloat - mouseX / (newBarWidth + v.spacing)
    { v with barWidth := newBarWidth, offsetIndex := max 0 newOffset }

/-- The constant `panSensitivity` of `Viewport.panBy`. -/
def panSensitivity : ℚ := 1

/-- `Viewport.panBy(deltaPx)` (renderer.ts lines 340-344): converts the pixel
delta to an index delta, subtracts it from `offsetIndex` and clamps to `≥ 0`. -/
def Viewport.panBy (v : Viewport) (deltaPx : ℚ) : Viewport :=
  { v with
    offsetIndex := max 0 (v.offsetIndex - deltaPx * panSensitivity / (v.barWidth + v.spacing)) }

/-- The logical bar index that viewport `v` places under pixel `px`:
`offsetIndex + px / (barWidth + spacing)`. -/
def logicalIndexAt (v : Viewport) (px : ℚ) : ℚ :=
  v.offsetIndex + px / (v.barWidth + v.spacing)

/-- Folding a list of pan deltas through `panBy`. -/
def panSeq (v : Viewport) (ds : List ℚ) : Viewport :=
  ds.foldl Viewport.panBy v

/-- Folding a list of `(pivot, factor)` pairs through `zoomAt`. -/
def zoomSeq (v : Viewport) (zs : List (ℚ × ℚ)) : Viewport :=
  zs.foldl (fun w z => w.zoomAt z.1 z.2) v

theorem zoomSeq_maxBarWidth (v : Viewport) (zs : List (ℚ × ℚ)) :
    (zoomSeq v zs).maxBarWidth = v.maxBarWidth := by
  induction zs generalizing v with
  | nil => rfl
  | cons z zs ih =>
      simp only [zoomSeq, List.foldl_cons] at ih ⊢
      rw [ih]
      unfold Viewport.zoomAt
      dsimp only
      split <;> rfl

/-! ## C1: pivot invariance of zoomAt -/

/-- C1 counterexample: the claim as stated fails when the lower clamp on
`offsetIndex` engages.  Zooming out (factor 1/2) at pivot pixel 7 from the
default state (`offsetIndex = 0`) recomputes a negative offset, which
`Math.max(0, ·)` clamps to 0, so the logical index under the pivot moves
from 1 to 7/4. -/
theorem zoomAt_pivot_invariance_cex :
    logicalIndexAt ((Viewport.init 200).zoomAt 7 (1 / 2)) 7 ≠
      logicalIndexAt (Viewport.init 200) 7 := by
  unfold Viewport.init Viewport.zoomAt logicalIndexAt
  norm_num

/-- C1 (amended): pivot invariance of `zoomAt` holds whenever the recomputed
offset `centerIndex − mouseX / (newBarWidth + spacing)` is nonnegative, so
that the clamp `Math.max(0, ·)` does not engage; the logical bar index under
the pivot pixel is then exactly preserved (hence within any floating-point
tolerance). -/
theorem zoomAt_pivot_invariance (v : Viewport) (p f : ℚ)
    (hoff : 0 ≤ v.offsetIndex + p / (v.barWidth + v.spacing)
        - p / (max 1 (min v.maxBarWidth (v.barWidth * f)) + v.spacing)) :
    logicalIndexAt (v.zoomAt p f) p = logicalIndexAt v p := by
  unfold Viewport.zoomAt
  dsimp only
  split
  · rfl
  · unfold logicalIndexAt
    dsimp only
    rw [max_eq_right hoff]
    ring

/-- C1 witness: a concrete zoom (pivot 7, factor 1/2, `offsetIndex = 10`)
where the clamp does not engage, so pivot invariance holds. -/
theorem zoomAt_pivot_invariance_wit :
    logicalIndexAt
        (({ Viewport.init 200 with offsetIndex := 10 }).zoomAt 7 (1 / 2)) 7 =
      logicalIndexAt ({ Viewport.init 200 with offsetIndex := 10 }) 7 :=
  zoomAt_pivot_invariance _ 7 (1 / 2) (by unfold Viewport.init; norm_num)

/-! ## C9: barWidth clamp invariant -/

theorem zoomAt_maxBarWidth (v : Viewport) (p f : ℚ) :
    (v.zoomAt p f).maxBarWidth = v.maxBarWidth := by
  unfold Viewport.zoomAt
  dsimp only
  split <;> rfl

theorem zoomAt_barWidth_mem (v : Viewport) (p f : ℚ)
    (hm : 1 ≤ v.maxBarWidth) (h1 : 1 ≤ v.barWidth) (h2 : v.barWidth ≤ v.maxBarWidth) :
    1 ≤ (v.zoomAt p f).barWidth ∧ (v.zoomAt p f).barWidth ≤ v.maxBarWidth := by
  unfold Viewport.zoomAt
  dsimp only
  split
  · exact ⟨h1, h2⟩
  · exact ⟨le_max_left 1 _, max_le hm (min_le_left _ _)⟩

/-- C9: starting from any state with `barWidth ∈ [1, maxBarWidth]` (and a
sane `maxBarWidth ≥ 1`), after any sequence of `zoomAt` calls with arbitrary
pivots and factors, `barWidth` stays within `[1, maxBarWidth]`. -/
theorem barWidth_clamp_invariant (v : Viewport) (zs : List (ℚ × ℚ))
    (hm : 1 ≤ v.maxBarWidth) (h1 : 1 ≤ v.barWidth) (h2 : v.barWidth ≤ v.maxBarWidth) :
    1 ≤ (zoomSeq v zs).barWidth ∧ (zoomSeq v zs).barWidth ≤ v.maxBarWidth := by
  induction zs generalizing v with
  | nil => exact ⟨h1, h2⟩
  | cons z zs ih =>
      simp only [zoomSeq, List.foldl_cons] at ih ⊢
      have hstep := zoomAt_barWidth_mem v z.1 z.2 hm h1 h2
      have hmax := zoomAt_maxBarWidth v z.1 z.2
      have := ih (v.zoomAt z.1 z.2) (hmax ▸ hm) hstep.1 (hmax ▸ hstep.2)
      exact ⟨this.1, hmax ▸ this.2⟩

/-- C9 witness: from the default state, a zoom with factor 1000 (which would
drive `barWidth` to 6000) leaves `barWidth` within `[1, 20]`. -/
theorem barWidth_clamp_invariant_wit :
    1 ≤ (zoomSeq (Viewport.init 200) [(0, 1000)]).barWidth ∧
      (zoomSeq (Viewport.init 200) [(0, 1000)]).barWidth ≤ (Viewport.init 200).maxBarWidth :=
  barWidth_clamp_invariant (Viewport.init 200) [(0, 1000)]
    (by norm_num [Viewport.init]) (by norm_num [Viewport.init]) (by norm_num [Viewport.init])

/-! ## C10: pan round-trip and non-negativity -/

theorem panSeq_nonneg (v : Viewport) (h0 : 0 ≤ v.offsetIndex) (ds : List ℚ) :
    0 ≤ (panSeq v ds).offsetIndex := by
  induction ds generalizing v with
  | nil => exact h0
  | cons d ds ih =>
      simp only [panSeq, List.foldl_cons] at ih ⊢
      exact ih (v.panBy d) (le_max_left 0 _)

/-- C10: `panBy(d)` followed by `panBy(−d)` restores `offsetIndex` whenever
the clamp at 0 does not engage in either call (the first call's result
`offsetIndex − d/(barWidth+spacing)` is nonnegative, and the original
`offsetIndex` is nonnegative so the second call does not clamp either); and
for any sequence of `panBy` calls from a nonnegative offset, `offsetIndex`
never becomes negative. -/
theorem panBy_roundtrip_and_nonneg (v : Viewport) (d : ℚ)
    (h0 : 0 ≤ v.offsetIndex)
    (h1 : 0 ≤ v.offsetIndex - d * panSensitivity / (v.barWidth + v.spacing)) :
    ((v.panBy d).panBy (-d)).offsetIndex = v.offsetIndex
    ∧ ∀ ds : List ℚ, 0 ≤ (panSeq v ds).offsetIndex := by
  refine ⟨?_, panSeq_nonneg v h0⟩
  show max 0 ((v.panBy d).offsetIndex - (-d) * panSensitivity /
      ((v.panBy d).barWidth + (v.panBy d).spacing)) = v.offsetIndex
  have hbw : (v.panBy d).barWidth = v.barWidth := rfl
  have hsp : (v.panBy d).spacing = v.spacing := rfl
  have hoff : (v.panBy d).offsetIndex
      = v.offsetIndex - d * panSensitivity / (v.barWidth + v.spacing) :=
    max_eq_right h1
  rw [hbw, hsp, hoff]
  have : v.offsetIndex - d * panSensitivity / (v.barWidth + v.spacing)
      - -d * panSensitivity / (v.barWidth + v.spacing) = v.offsetIndex := by
    ring
  rw [this, max_eq_right h0]

/-- C10 witness: from `offsetIndex = 5` in the default state, `panBy 7` then
`panBy (−7)` restores `offsetIndex = 5`, and no pan sequence drives the
offset negative. -/
theorem panBy_roundtrip_and_nonneg_wit :
    ((({ Viewport.init 200 with offsetIndex := 5 }).panBy 7).panBy (-7)).offsetIndex =
      ({ Viewport.init 200 with offsetIndex := 5 } : Viewport).offsetIndex
    ∧ ∀ ds : List ℚ,
        0 ≤ (panSeq ({ Viewport.init 200 with offsetIndex := 5 }) ds).offsetIndex :=
  panBy_roundtrip_and_nonneg _ 7 (by norm_num [Viewport.init])
    (by norm_num [Viewport.init, panSensitivity])

/-! ## C2: offset bounds -/

/-- The overscroll allowance `additionalOffset` of `Chart.render`. -/
def additionalOffset : ℚ := 50

/-- The invariant claimed for `offsetIndex`:
`0 ≤ offsetIndex ≤ max 0 (totalBars − visibleCount + slack)`. -/
def offsetWithinBounds (offsetIndex : ℚ) (totalBars visibleCount : ℕ) (slack : ℚ) : Prop :=
  0 ≤ offsetIndex ∧ offsetIndex ≤ max 0 ((totalBars : ℚ) - visibleCount + slack)

/-- The clamp at the start of `Chart.render` (chart.ts lines 105-107):
if `offsetIndex + visibleCount > bars.length + additionalOffset` then
`offsetIndex := max 0 (bars.length − visibleCount + additionalOffset)`. -/
def renderClampOffset (offsetIndex : ℚ) (totalBars visibleCount : ℕ) : ℚ :=
  if (totalBars : ℚ) + additionalOffset < offsetIndex + visibleCount then
    max 0 ((totalBars : ℚ) - visibleCount + additionalOffset)
  else offsetIndex

/-- The double-click reset handler (chart.ts lines 313-319): `barWidth := 6`,
`offsetIndex := max 0 (bars.length − 200)`. -/
def dblclickReset (v : Viewport) (totalBars : ℕ) : Viewport :=
  { v with barWidth := 6, offsetIndex := max 0 ((totalBars : ℚ) - 200) }

/-- C2 counterexample: a single `panBy` with a large negative delta drives
`offsetIndex` to `10000/7`, far above `max 0 (3 − 200 + 50) = 0` for a
3-bar chart with `visibleCount = 200` and slack 50: the mutators themselves
do not enforce the upper bound. -/
theorem offset_bounds_cex :
    ¬ offsetWithinBounds ((Viewport.init 200).panBy (-10000)).offsetIndex 3 200 50 := by
  unfold offsetWithinBounds Viewport.panBy Viewport.init panSensitivity
  norm_num

/-- C2 (amended): every viewport mutator (`panBy`, `zoomAt`, momentum steps
through `panBy`, and the double-click reset) keeps `offsetIndex ≥ 0` only;
the full bound `offsetIndex ∈ [0, max 0 (totalBars − visibleCount + 50)]`
is established by the clamp at the start of each `Chart.render` pass, so it
holds for every rendered frame. -/
theorem offset_bounds_after_render (v : Viewport) (d p f : ℚ) (tb vc : ℕ) (off : ℚ)
    (h0 : 0 ≤ v.offsetIndex) (hoff : 0 ≤ off) :
    0 ≤ (v.panBy d).offsetIndex
    ∧ 0 ≤ (v.zoomAt p f).offsetIndex
    ∧ 0 ≤ (dblclickReset v tb).offsetIndex
    ∧ offsetWithinBounds (renderClampOffset off tb vc) tb vc additionalOffset := by
  refine ⟨le_max_left 0 _, ?_, le_max_left 0 _, ?_⟩
  · unfold Viewport.zoomAt
    dsimp only
    split
    · exact h0
    · exact le_max_left 0 _
  · unfold renderClampOffset offsetWithinBounds
    split
    · exact ⟨le_max_left 0 _, le_rfl⟩
    · rename_i hc
      push_neg at hc
      refine ⟨hoff, le_trans ?_ (le_max_right 0 _)⟩
      linarith

/-- C2 witness: concrete instance — 3 bars, `visibleCount = 200`, a stray
`offsetIndex = 500`; the render clamp brings it back into
`[0, max 0 (3 − 200 + 50)] = [0, 0]`, and the mutators keep offsets ≥ 0. -/
theorem offset_bounds_after_render_wit :
    0 ≤ ((Viewport.init 200).panBy 3).offsetIndex
    ∧ 0 ≤ ((Viewport.init 200).zoomAt 2 2).offsetIndex
    ∧ 0 ≤ (dblclickReset (Viewport.init 200) 3).offsetIndex
    ∧ offsetWithinBounds (renderClampOffset 500 3 200) 3 200 additionalOffset :=
  offset_bounds_after_render (Viewport.init 200) 3 2 2 3 200 500
    (by norm_num [Viewport.init]) (by norm_num)

/-! ## C5: price range calculator (Chart.calculatePriceRange, chart.ts 195-214) -/

/-- The window of bars actually visited by the per-frame scan loops: starting
at `startIndex`, up to `visibleCount` bars, stopping at the end of the array
(the loops break at the first missing bar, i.e. the first out-of-range index). -/
def windowBars (bars : List Bar) (startIndex visibleCount : ℕ) : List Bar :=
  (bars.drop startIndex).take visibleCount

/-- `Chart.calculatePriceRange`: fold of `min` over the Lows and `max` over
the Highs of the visible window (the code starts from `Infinity` and
`-Infinity` and its `isFinite` check replaces the untouched sentinels, i.e.
the empty-window case, by `(0, 1)`); then symmetric padding
`(max − min) * 0.05 || 1e-6` applied to both bounds. -/
def calculatePriceRange (bars : List Bar) (startIndex visibleCount : ℕ) : ℚ × ℚ :=
  let mm : ℚ × ℚ :=
    match windowBars bars startIndex visibleCount with
    | [] => (0, 1)
    | b :: bs => (bs.foldl (fun m x => min m x.Low) b.Low,
                  bs.foldl (fun m x => max m x.High) b.High)
  let pad : ℚ :=
    if (mm.2 - mm.1) * (5 / 100) = 0 then 1 / 1000000 else (mm.2 - mm.1) * (5 / 100)
  (mm.1 - pad, mm.2 + pad)

theorem foldl_min_le_init (f : Bar → ℚ) (l : List Bar) (a : ℚ) :
    l.foldl (fun m x => min m (f x)) a ≤ a := by
  induction l generalizing a with
  | nil => exact le_rfl
  | cons x l ih => exact le_trans (ih (min a (f x))) (min_le_left _ _)

theorem foldl_max_init_le (f : Bar → ℚ) (l : List Bar) (a : ℚ) :
    a ≤ l.foldl (fun m x => max m (f x)) a := by
  induction l generalizing a with
  | nil => exact le_rfl
  | cons x l ih => exact le_trans (le_max_left _ _) (ih (max a (f x)))

theorem foldl_min_le_mem (f : Bar → ℚ) :
    ∀ (l : List Bar) (a : ℚ) (x : Bar), x ∈ l →
      l.foldl (fun m y => min m (f y)) a ≤ f x
  | [], _, x, hx => absurd hx (List.not_mem_nil x)
  | y :: l, a, x, hx => by
      simp only [List.foldl_cons]
      rcases List.mem_cons.mp hx with h | h
      · subst h
        exact le_trans (foldl_min_le_init f l _) (min_le_right _ _)
      · exact foldl_min_le_mem f l _ x h

theorem foldl_max_mem_le (f : Bar → ℚ) :
    ∀ (l : List Bar) (a : ℚ) (x : Bar), x ∈ l →
      f x ≤ l.foldl (fun m y => max m (f y)) a
  | [], _, x, hx => absurd hx (List.not_mem_nil x)
  | y :: l, a, x, hx => by
      simp only [List.foldl_cons]
      rcases List.mem_cons.mp hx with h | h
      · subst h
        exact le_trans (le_max_right _ _) (foldl_max_init_le f l _)
      · exact foldl_max_mem_le f l _ x h

/-- C5: for a window whose bars satisfy the OHLC sanity condition
`Low ≤ High`, `calculatePriceRange` returns `minPrice` strictly below every
Low and `maxPrice` strictly above every High of the window; the empty window
yields the padded defaults `(0 − 1/20, 1 + 1/20)` of the range `[0, 1]`; and
in every case `minPrice < maxPrice`, so the price-to-pixel transform never
divides by zero. -/
theorem calculatePriceRange_spec (bars : List Bar) (s c : ℕ)
    (hok : ∀ b ∈ windowBars bars s c, b.Low ≤ b.High) :
    (calculatePriceRange bars s c).1 < (calculatePriceRange bars s c).2
    ∧ (∀ b ∈ windowBars bars s c,
        (calculatePriceRange bars s c).1 < b.Low
        ∧ b.High < (calculatePriceRange bars s c).2)
    ∧ (windowBars bars s c = [] →
        calculatePriceRange bars s c = (0 - 1 / 20, 1 + 1 / 20)) := by
  rcases h : windowBars bars s c with _ | ⟨b, bs⟩
  · simp only [calculatePriceRange, h]
    norm_num
  · have hb : b ∈ windowBars bars s c := by
      rw [h]; exact List.mem_cons_self b bs
    have hmn_init : bs.foldl (fun m x => min m x.Low) b.Low ≤ b.Low :=
      foldl_min_le_init _ bs _
    have hmx_init : b.High ≤ bs.foldl (fun m x => max m x.High) b.High :=
      foldl_max_init_le _ bs _
    have hmm : bs.foldl (fun m x => min m x.Low) b.Low
        ≤ bs.foldl (fun m x => max m x.High) b.High :=
      le_trans hmn_init (le_trans (hok b hb) hmx_init)
    simp only [calculatePriceRange, h]
    have hmem :
        ∀ b' ∈ b :: bs,
          bs.foldl (fun m x => min m x.Low) b.Low ≤ b'.Low
          ∧ b'.High ≤ bs.foldl (fun m x => max m x.High) b.High := by
      intro b' hb'
      rcases List.mem_cons.mp hb' with h' | h'
      · subst h'; exact ⟨hmn_init, hmx_init⟩
      · exact ⟨foldl_min_le_mem _ bs _ _ h', foldl_max_mem_le _ bs _ _ h'⟩
    split_ifs with hz
    · refine ⟨by linarith, ?_, fun hE => hE.elim⟩
      intro b' hb'
      have := hmem b' hb'
      exact ⟨by linarith [this.1], by linarith [this.2]⟩
    · have hzpos : 0 < (bs.foldl (fun m x => max m x.High) b.High
          - bs.foldl (fun m x => min m x.Low) b.Low) * (5 / 100) := by
        rcases lt_or_eq_of_le (sub_nonneg.mpr hmm) with hlt | heq
        · positivity
        · exact absurd (by rw [← heq]; ring) hz
      refine ⟨by linarith, ?_, fun hE => hE.elim⟩
      intro b' hb'
      have := hmem b' hb'
      exact ⟨by linarith [this.1], by linarith [this.2]⟩

/-- C5 witness: the one-bar window `[Low = 1, High = 2]` gives
`minPrice < 1` and `maxPrice > 2`, and `minPrice < maxPrice`. -/
theorem calculatePriceRange_spec_wit :
    (calculatePriceRange [⟨1, 1, 2, 1, 3 / 2, 10⟩] 0 5).1 <
        (calculatePriceRange [⟨1, 1, 2, 1, 3 / 2, 10⟩] 0 5).2
    ∧ (∀ b ∈ windowBars [⟨1, 1, 2, 1, 3 / 2, 10⟩] 0 5,
        (calculatePriceRange [⟨1, 1, 2, 1, 3 / 2, 10⟩] 0 5).1 < b.Low
        ∧ b.High < (calculatePriceRange [⟨1, 1, 2, 1, 3 / 2, 10⟩] 0 5).2)
    ∧ (windowBars [⟨1, 1, 2, 1, 3 / 2, 10⟩] 0 5 = [] →
        calculatePriceRange [⟨1, 1, 2, 1, 3 / 2, 10⟩] 0 5 = (0 - 1 / 20, 1 + 1 / 20)) :=
  calculatePriceRange_spec [⟨1, 1, 2, 1, 3 / 2, 10⟩] 0 5
    (by
      intro b hb
      simp only [windowBars, List.drop, List.take, List.mem_singleton] at hb
      subst hb
      norm_num)

/-! ## C7: momentum decay (Chart.updateMomentum, chart.ts 246-258) -/

/-- The chart state that the momentum loop touches: the viewport, the pan
velocity, and the `isPanning` flag. -/
structure MomentumState where
  viewport : Viewport
  panVelocity : ℚ
  isPanning : Bool
deriving Repr

/-- One `updateMomentum` step: bail out when not panning; while
`|panVelocity| > 0.1`, apply `Viewport.panBy(panVelocity)` and multiply the
velocity by the friction coefficient `0.97`; otherwise leave the state
unchanged. -/
def updateMomentum (s : MomentumState) : MomentumState :=
  if s.isPanning = false then s
  else if 1 / 10 < |s.panVelocity| then
    { s with viewport := s.viewport.panBy s.panVelocity
             panVelocity := s.panVelocity * (97 / 100) }
  else s

/-- Whether `updateMomentum` schedules another animation-frame step: only
when panning and `|panVelocity| > 0.1`. -/
def momentumReschedules (s : MomentumState) : Bool :=
  s.isPanning && decide ((1 : ℚ) / 10 < |s.panVelocity|)

theorem updateMomentum_isPanning (s : MomentumState) :
    (updateMomentum s).isPanning = s.isPanning := by
  unfold updateMomentum
  split
  · rfl
  · split <;> rfl

theorem momentum_iterate_isPanning (s : MomentumState) (n : ℕ) :
    (updateMomentum^[n] s).isPanning = s.isPanning := by
  induction n with
  | zero => rfl
  | succ n ih => rw [Function.iterate_succ_apply', updateMomentum_isPanning, ih]

theorem updateMomentum_active (t : MomentumState) (hpan : t.isPanning = true)
    (hA : 1 / 10 < |t.panVelocity|) :
    updateMomentum t = { t with viewport := t.viewport.panBy t.panVelocity
                                panVelocity := t.panVelocity * (97 / 100) } := by
  unfold updateMomentum
  rw [hpan, if_neg (by simp : ¬(true = false)), if_pos hA]

theorem momentum_velocity_iterate (s : MomentumState) (hp : s.isPanning = true) :
    ∀ n : ℕ, (∀ k < n, 1 / 10 < |(updateMomentum^[k] s).panVelocity|) →
      (updateMomentum^[n] s).panVelocity = s.panVelocity * (97 / 100) ^ n := by
  intro n
  induction n with
  | zero => intro _; simp
  | succ n ih =>
      intro hact
      have hv := ih fun k hk => hact k (hk.trans (Nat.lt_succ_self n))
      have hpan : (updateMomentum^[n] s).isPanning = true := by
        rw [momentum_iterate_isPanning]; exact hp
      have hA : 1 / 10 < |(updateMomentum^[n] s).panVelocity| :=
        hact n (Nat.lt_succ_self n)
      rw [Function.iterate_succ_apply', updateMomentum_active _ hpan hA]
      dsimp only
      rw [hv, pow_succ]
      ring

/-- C7: with the panning flag set, as long as the threshold has not been
crossed the velocity after `n` momentum steps is exactly `v0 × 0.97^n`;
any state with `|velocity| ≤ 0.1` is a fixed point of the step and schedules
no further step; and from any start, after finitely many steps no further
step is scheduled (the momentum loop terminates). -/
theorem momentum_decay (s : MomentumState) (n : ℕ)
    (hp : s.isPanning = true)
    (hact : ∀ k < n, 1 / 10 < |(updateMomentum^[k] s).panVelocity|) :
    (updateMomentum^[n] s).panVelocity = s.panVelocity * (97 / 100) ^ n
    ∧ (∀ t : MomentumState, |t.panVelocity| ≤ 1 / 10 →
        updateMomentum t = t ∧ momentumReschedules t = false)
    ∧ ∃ m : ℕ, momentumReschedules (updateMomentum^[m] s) = false := by
  refine ⟨momentum_velocity_iterate s hp n hact, ?_, ?_⟩
  · intro t ht
    have hlt : ¬ (1 / 10 < |t.panVelocity|) := not_lt.mpr ht
    constructor
    · by_cases hpt : t.isPanning = false
      · unfold updateMomentum
        rw [if_pos hpt]
      · unfold updateMomentum
        rw [if_neg hpt, if_neg hlt]
    · unfold momentumReschedules
      rw [decide_eq_false hlt, Bool.and_false]
  · by_contra hc
    push_neg at hc
    have hall : ∀ m : ℕ, 1 / 10 < |(updateMomentum^[m] s).panVelocity| := by
      intro m
      have htrue : momentumReschedules (updateMomentum^[m] s) = true := by
        cases hb : momentumReschedules (updateMomentum^[m] s)
        · exact absurd hb (hc m)
        · rfl
      unfold momentumReschedules at htrue
      simp only [Bool.and_eq_true, decide_eq_true_eq] at htrue
      exact htrue.2
    have hv : ∀ m : ℕ,
        (updateMomentum^[m] s).panVelocity = s.panVelocity * (97 / 100) ^ m :=
      fun m => momentum_velocity_iterate s hp m fun k _ => hall k
    have h0 : 1 / 10 < |s.panVelocity| := by simpa using hall 0
    have hv0pos : 0 < |s.panVelocity| := lt_trans (by norm_num) h0
    obtain ⟨m, hm⟩ :=
      exists_pow_lt_of_lt_one
        (show (0 : ℚ) < 1 / 10 / |s.panVelocity| by positivity)
        (show (97 : ℚ) / 100 < 1 by norm_num)
    have hgt := hall m
    rw [hv m, abs_mul, abs_pow,
      abs_of_nonneg (show (0 : ℚ) ≤ 97 / 100 by norm_num)] at hgt
    have hsm : ((97 : ℚ) / 100) ^ m * |s.panVelocity| < 1 / 10 :=
      (lt_div_iff₀ hv0pos).mp hm
    rw [mul_comm] at hsm
    linarith

/-- C7 witness: from release velocity 1 with the panning flag set, two
active steps give velocity `1 × 0.97²`, the below-threshold fixed-point
property holds, and the loop terminates. -/
theorem momentum_decay_wit :
    (updateMomentum^[2] ⟨Viewport.init 200, 1, true⟩).panVelocity = 1 * (97 / 100) ^ 2
    ∧ (∀ t : MomentumState, |t.panVelocity| ≤ 1 / 10 →
        updateMomentum t = t ∧ momentumReschedules t = false)
    ∧ ∃ m : ℕ, momentumReschedules (updateMomentum^[m] ⟨Viewport.init 200, 1, true⟩) = false :=
  momentum_decay ⟨Viewport.init 200, 1, true⟩ 2 rfl
    (by
      intro k hk
      interval_cases k
      · norm_num
      · rw [Function.iterate_one,
          updateMomentum_active ⟨Viewport.init 200, 1, true⟩ rfl (by norm_num)]
        dsimp only
        rw [one_mul, abs_of_pos (by norm_num : (0 : ℚ) < 97 / 100)]
        norm_num)

/-! ## C8: load-failure atomicity (Chart.loadData, chart.ts 57-82) -/

/-- The chart-controller state that `loadData` touches. -/
structure ChartState where
  bars : List Bar
  viewport : Viewport
  isLoading : Bool
  loadingProgress : ℚ
  loadingMessage : String

/-- `Chart.setLoading(loading, progress, message)`: sets the flag, clamps
the progress to `[0, 100]`, stores the message. -/
def setLoading (s : ChartState) (loading : Bool) (progress : ℚ) (message : String) : ChartState :=
  { s with isLoading := loading
           loadingProgress := max 0 (min 100 progress)
           loadingMessage := message }

/-- `Chart.setInitialData(bars)`: replaces the bar array and repositions the
viewport at the most recent `visibleCount` bars. -/
def setInitialData (s : ChartState) (bars : List Bar) : ChartState :=
  { s with bars := bars
           viewport := { s.viewport with
             offsetIndex := max 0 ((bars.length : ℚ) - s.viewport.visibleCount) } }

/-- `Chart.loadData` with the awaited fetch outcome made explicit: it sets
the loading flag, applies whatever progress callbacks fired before the
outcome, then either commits the new bars and clears the flag (success), or
clears the flag and rethrows the error (failure). -/
def loadData (s : ChartState) (progressEvents : List (ℚ × String))
    (result : Except String (List Bar)) : ChartState × Except String Unit :=
  let s1 := setLoading s true 0 "Starting data load..."
  let s2 := progressEvents.foldl (fun st e => setLoading st true e.1 e.2) s1
  match result with
  | Except.ok bars =>
      (setLoading (setInitialData s2 bars) false 0 "Loading data...", Except.ok ())
  | Except.error e =>
      (setLoading s2 false 0 "Loading data...", Except.error e)

theorem setLoadingFold_bars (s : ChartState) (evs : List (ℚ × String)) :
    (evs.foldl (fun st e => setLoading st true e.1 e.2) s).bars = s.bars
    ∧ (evs.foldl (fun st e => setLoading st true e.1 e.2) s).viewport = s.viewport := by
  induction evs generalizing s with
  | nil => exact ⟨rfl, rfl⟩
  | cons ev evs ih => exact ih (setLoading s true ev.1 ev.2)

/-- C8: whenever the fetch or decode fails, `loadData` leaves the previously
loaded bars and the viewport untouched, clears the loading flag, and
rethrows the error to the caller. -/
theorem loadData_failure_atomic (s : ChartState) (evs : List (ℚ × String)) (e : String) :
    (loadData s evs (Except.error e)).1.bars = s.bars
    ∧ (loadData s evs (Except.error e)).1.viewport = s.viewport
    ∧ (loadData s evs (Except.error e)).1.isLoading = false
    ∧ (loadData s evs (Except.error e)).2 = Except.error e := by
  have h := setLoadingFold_bars (setLoading s true 0 "Starting data load...") evs
  exact ⟨h.1, h.2, rfl, rfl⟩

/-! ## C6: chunked-format expansion (DataLoader.loadForexTesterChunk) -/

/-- An entry of a legacy chunk: `time` relative to the chunk start, optional
OHLC fields, tick volume. -/
structure RawChunkEntry where
  Time : ℤ
  Open : Option ℚ
  High : Option ℚ
  Low : Option ℚ
  Close : Option ℚ
  TickVolume : ℚ
deriving DecidableEq, Repr

/-- A legacy chunk `{ChunkStart, Bars}`. -/
structure BarChunk where
  ChunkStart : ℤ
  Bars : List RawChunkEntry
deriving DecidableEq, Repr

/-- The per-entry expansion performed by the chunk loop:
`Time + chunkStart`, with missing OHLC fields defaulted to 0 (`?? 0`);
`TickVolume` is taken as is. -/
def expandEntry (chunkStart : ℤ) (e : RawChunkEntry) : Bar :=
  { Time := e.Time + chunkStart
    Open := e.Open.getD 0
    High := e.High.getD 0
    Low := e.Low.getD 0
    Close := e.Close.getD 0
    TickVolume := e.TickVolume }

/-- The merged (pre-sort) bar list produced by the chunk loop. -/
def expandChunks (chunks : List BarChunk) : List Bar :=
  chunks.flatMap fun c => c.Bars.map (expandEntry c.ChunkStart)

/-- The sort comparator `(a, b) => a.Time - b.Time`, i.e. ascending time. -/
def barTimeLE (a b : Bar) : Prop := a.Time ≤ b.Time

instance : DecidableRel barTimeLE :=
  fun a b => inferInstanceAs (Decidable (a.Time ≤ b.Time))

instance : IsTotal Bar barTimeLE := ⟨fun a b => le_total a.Time b.Time⟩

instance : IsTrans Bar barTimeLE := ⟨fun _ _ _ h1 h2 => le_trans h1 h2⟩

/-- The `bars.sort((a, b) => a.Time - b.Time)` step, modelled by a stable
sort with the same comparator. -/
def sortBarsByTime (l : List Bar) : List Bar := l.insertionSort barTimeLE

/-- The merged, time-sorted output of the chunked branch. -/
def loadChunkedBars (chunks : List BarChunk) : List Bar :=
  sortBarsByTime (expandChunks chunks)

/-- An element of a JSON array payload: either a bar object (an object with
a `Time` field, the shape test of the flat branch) or a chunk object. -/
inductive PayloadItem where
  | barObj (b : Bar)
  | chunkObj (c : BarChunk)

/-- A decoded response payload: a JSON array, or any non-array value. -/
inductive Payload where
  | jsonArray (items : List PayloadItem)
  | nonArray

def itemBar : PayloadItem → Option Bar
  | PayloadItem.barObj b => some b
  | _ => none

def itemChunk : PayloadItem → Option BarChunk
  | PayloadItem.chunkObj c => some c
  | _ => none

/-- The decoding logic of `DataLoader.loadForexTesterChunk` after the JSON
parse: a nonempty array whose first element carries a `Time` field is taken
as a flat bar array and sorted; any other array goes through the chunked
expansion; a non-array payload is a fatal format error.  (The untyped
`as Bar[]` / `as BarChunk[]` casts of the source are modelled by keeping the
items of the respective shape.) -/
def loadForexTesterChunk : Payload → Except String (List Bar)
  | Payload.nonArray => Except.error "Unexpected data format"
  | Payload.jsonArray items =>
      match items with
      | PayloadItem.barObj b :: rest =>
          Except.ok (sortBarsByTime (b :: rest.filterMap itemBar))
      | _ => Except.ok (loadChunkedBars (items.filterMap itemChunk))

theorem filterMap_itemChunk_map (chunks : List BarChunk) :
    (chunks.map PayloadItem.chunkObj).filterMap itemChunk = chunks := by
  induction chunks with
  | nil => rfl
  | cons c cs ih => simp [List.filterMap_cons, itemChunk, ih]

/-- C6: a chunked payload decodes to the chunk expansion; the output is a
permutation of the expanded entries of all chunks (merged), sorted ascending
by time; each entry expands to absolute time `relative + ChunkStart` with
missing OHLC fields defaulted to 0 and is present in the output; and a
non-array payload fails with the format error. -/
theorem chunked_expansion_spec (chunks : List BarChunk) :
    loadForexTesterChunk (Payload.jsonArray (chunks.map PayloadItem.chunkObj))
      = Except.ok (loadChunkedBars chunks)
    ∧ List.Perm (loadChunkedBars chunks) (expandChunks chunks)
    ∧ List.Sorted barTimeLE (loadChunkedBars chunks)
    ∧ (∀ c ∈ chunks, ∀ e ∈ c.Bars,
        expandEntry c.ChunkStart e ∈ loadChunkedBars chunks
        ∧ (expandEntry c.ChunkStart e).Time = e.Time + c.ChunkStart
        ∧ (e.Open = none → (expandEntry c.ChunkStart e).Open = 0)
        ∧ (e.High = none → (expandEntry c.ChunkStart e).High = 0)
        ∧ (e.Low = none → (expandEntry c.ChunkStart e).Low = 0)
        ∧ (e.Close = none → (expandEntry c.ChunkStart e).Close = 0))
    ∧ loadForexTesterChunk Payload.nonArray = Except.error "Unexpected data format" := by
  have hperm : List.Perm (loadChunkedBars chunks) (expandChunks chunks) :=
    List.perm_insertionSort barTimeLE (expandChunks chunks)
  refine ⟨?_, hperm, List.sorted_insertionSort barTimeLE (expandChunks chunks), ?_, rfl⟩
  · cases chunks with
    | nil => rfl
    | cons c cs =>
        show Except.ok (loadChunkedBars
            ((PayloadItem.chunkObj c :: cs.map PayloadItem.chunkObj).filterMap itemChunk))
          = Except.ok (loadChunkedBars (c :: cs))
        rw [show PayloadItem.chunkObj c :: cs.map PayloadItem.chunkObj
            = (c :: cs).map PayloadItem.chunkObj from rfl,
          filterMap_itemChunk_map]
  · intro c hc e he
    refine ⟨?_, rfl, ?_, ?_, ?_, ?_⟩
    · rw [hperm.mem_iff]
      exact List.mem_flatMap.mpr ⟨c, hc, List.mem_map_of_mem _ he⟩
    all_goals intro h
    all_goals unfold expandEntry
    all_goals rw [h]
    all_goals rfl

/-- C6 witness: the spec's own example — a chunk with `ChunkStart = 1000`
and one entry with relative time 5 yields a bar with absolute time 1005,
present in the loader's output. -/
theorem chunked_expansion_spec_wit :
    expandEntry 1000 ⟨5, some 1, none, none, none, 10⟩ ∈
        loadChunkedBars [⟨1000, [⟨5, some 1, none, none, none, 10⟩]⟩]
    ∧ (expandEntry 1000 ⟨5, some 1, none, none, none, 10⟩).Time = 1005 := by
  have h :=
    (chunked_expansion_spec [⟨1000, [⟨5, some 1, none, none, none, 10⟩]⟩]).2.2.2.1
      ⟨1000, [⟨5, some 1, none, none, none, 10⟩]⟩ (List.mem_singleton_self _)
      ⟨5, some 1, none, none, none, 10⟩ (List.mem_singleton_self _)
  exact ⟨h.1, by rw [h.2.1]; decide⟩

/-! ## C3: non-finite inputs (IEEE-special model)

The viewport operators contain no `isFinite` guard, so to settle the
non-finite-input claim the numbers are modelled as rationals extended with
`NaN`, `Infinity` and `-Infinity`, with the IEEE propagation rules the
JavaScript operators follow (signed zeros are irrelevant here and
identified with 0). -/

/-- A JavaScript number: a finite value, `NaN`, `Infinity` or `-Infinity`. -/
inductive JSNum where
  | fin (q : ℚ)
  | nan
  | inf
  | ninf
deriving DecidableEq, Repr

namespace JSNum

def isFinite : JSNum → Bool
  | fin _ => true
  | _ => false

def neg : JSNum → JSNum
  | fin q => fin (-q)
  | nan => nan
  | inf => ninf
  | ninf => inf

def add : JSNum → JSNum → JSNum
  | fin a, fin b => fin (a + b)
  | nan, _ => nan
  | _, nan => nan
  | inf, ninf => nan
  | ninf, inf => nan
  | inf, _ => inf
  | _, inf => inf
  | ninf, _ => ninf
  | _, ninf => ninf

def sub (a b : JSNum) : JSNum := add a (neg b)

def mul : JSNum → JSNum → JSNum
  | fin a, fin b => fin (a * b)
  | nan, _ => nan
  | _, nan => nan
  | inf, inf => inf
  | inf, ninf => ninf
  | ninf, inf => ninf
  | ninf, ninf => inf
  | inf, fin b => if b = 0 then nan else if 0 < b then inf else ninf
  | fin a, inf => if a = 0 then nan else if 0 < a then inf else ninf
  | ninf, fin b => if b = 0 then nan else if 0 < b then ninf else inf
  | fin a, ninf => if a = 0 then nan else if 0 < a then ninf else inf

def div : JSNum → JSNum → JSNum
  | nan, _ => nan
  | _, nan => nan
  | fin a, fin b =>
      if b = 0 then (if a = 0 then nan else if 0 < a then inf else ninf)
      else fin (a / b)
  | fin _, inf => fin 0
  | fin _, ninf => fin 0
  | inf, fin b => if 0 ≤ b then inf else ninf
  | ninf, fin b => if 0 ≤ b then ninf else inf
  | inf, inf => nan
  | inf, ninf => nan
  | ninf, inf => nan
  | ninf, ninf => nan

/-- `Math.max`: `NaN` if any argument is `NaN`. -/
def jsmax : JSNum → JSNum → JSNum
  | nan, _ => nan
  | _, nan => nan
  | fin a, fin b => fin (max a b)
  | inf, _ => inf
  | _, inf => inf
  | ninf, x => x
  | x, ninf => x

/-- `Math.min`: `NaN` if any argument is `NaN`. -/
def jsmin : JSNum → JSNum → JSNum
  | nan, _ => nan
  | _, nan => nan
  | fin a, fin b => fin (min a b)
  | ninf, _ => ninf
  | _, ninf => ninf
  | inf, x => x
  | x, inf => x

/-- `Math.abs`. -/
def jsabs : JSNum → JSNum
  | fin q => fin |q|
  | nan => nan
  | inf => inf
  | ninf => inf

/-- The `<` comparison: false whenever an operand is `NaN`. -/
def jslt : JSNum → JSNum → Bool
  | nan, _ => false
  | _, nan => false
  | fin a, fin b => decide (a < b)
  | ninf, ninf => false
  | ninf, _ => true
  | _, ninf => false
  | inf, inf => false
  | fin _, inf => true
  | inf, fin _ => false

end JSNum

/-- The viewport state over JavaScript numbers. -/
structure ViewportJS where
  offsetIndex : JSNum
  barWidth : JSNum
  spacing : JSNum
  maxBarWidth : JSNum
  visibleCount : ℕ
deriving DecidableEq, Repr

/-- Defaults of `new Viewport(visibleCount)` in the JSNum model. -/
def ViewportJS.init (visibleCount : ℕ) : ViewportJS :=
  { offsetIndex := JSNum.fin 0
    barWidth := JSNum.fin 6
    spacing := JSNum.fin 1
    maxBarWidth := JSNum.fin 20
    visibleCount := visibleCount }

/-- `Viewport.zoomAt` transcribed over JSNum, operation for operation. -/
def ViewportJS.zoomAt (v : ViewportJS) (mouseX zoomFactor : JSNum) : ViewportJS :=
  let centerIndexFloat := JSNum.add v.offsetIndex
    (JSNum.div mouseX (JSNum.add v.barWidth v.spacing))
  let newBarWidth := JSNum.jsmax (JSNum.fin 1)
    (JSNum.jsmin v.maxBarWidth (JSNum.mul v.barWidth zoomFactor))
  if JSNum.jslt (JSNum.jsabs (JSNum.sub newBarWidth v.barWidth)) (JSNum.fin (1 / 100)) then v
  else
    let newOffset := JSNum.sub centerIndexFloat
      (JSNum.div mouseX (JSNum.add newBarWidth v.spacing))
    { v with barWidth := newBarWidth, offsetIndex := JSNum.jsmax (JSNum.fin 0) newOffset }

/-- `Viewport.panBy` transcribed over JSNum, operation for operation. -/
def ViewportJS.panBy (v : ViewportJS) (deltaPx : JSNum) : ViewportJS :=
  { v with
    offsetIndex := JSNum.jsmax (JSNum.fin 0)
      (JSNum.sub v.offsetIndex
        (JSNum.div (JSNum.mul deltaPx (JSNum.fin 1)) (JSNum.add v.barWidth v.spacing))) }

/-- C3 counterexample: the operators do not reject non-finite inputs.
From the default state, `panBy(NaN)` leaves `offsetIndex = NaN` (the NaN
flows through `Math.max(0, ·)`), and `zoomAt(7, NaN)` leaves
`barWidth = NaN` and `offsetIndex = NaN`. -/
theorem nonfinite_rejection_cex :
    ((ViewportJS.init 200).panBy JSNum.nan).offsetIndex = JSNum.nan
    ∧ ((ViewportJS.init 200).zoomAt (JSNum.fin 7) JSNum.nan).barWidth = JSNum.nan
    ∧ ((ViewportJS.init 200).zoomAt (JSNum.fin 7) JSNum.nan).offsetIndex = JSNum.nan := by
  norm_num [ViewportJS.init, ViewportJS.panBy, ViewportJS.zoomAt, JSNum.mul, JSNum.div,
    JSNum.add, JSNum.sub, JSNum.neg, JSNum.jsmax, JSNum.jsmin, JSNum.jsabs, JSNum.jslt]

/-- C3 (amended): the viewport operators are total (they never throw), but a
non-finite input is not rejected: from any finite state, a `NaN` pan delta
leaves `offsetIndex = NaN`, and a `NaN` zoom factor leaves both `barWidth`
and `offsetIndex` `NaN`, the NaN having propagated through the clamp logic;
finite inputs on a finite state (with `barWidth + spacing ≠ 0` and
`spacing ≥ 0`) do keep `offsetIndex` and `barWidth` finite. -/
theorem nonfinite_propagation (o b s m : ℚ) (vc : ℕ) (p d f : ℚ)
    (hbs : b + s ≠ 0) (hs : 0 ≤ s) :
    (ViewportJS.panBy ⟨JSNum.fin o, JSNum.fin b, JSNum.fin s, JSNum.fin m, vc⟩
        JSNum.nan).offsetIndex = JSNum.nan
    ∧ (ViewportJS.zoomAt ⟨JSNum.fin o, JSNum.fin b, JSNum.fin s, JSNum.fin m, vc⟩
        (JSNum.fin p) JSNum.nan).barWidth = JSNum.nan
    ∧ (ViewportJS.zoomAt ⟨JSNum.fin o, JSNum.fin b, JSNum.fin s, JSNum.fin m, vc⟩
        (JSNum.fin p) JSNum.nan).offsetIndex = JSNum.nan
    ∧ ((ViewportJS.panBy ⟨JSNum.fin o, JSNum.fin b, JSNum.fin s, JSNum.fin m, vc⟩
        (JSNum.fin d)).offsetIndex).isFinite = true
    ∧ ((ViewportJS.zoomAt ⟨JSNum.fin o, JSNum.fin b, JSNum.fin s, JSNum.fin m, vc⟩
        (JSNum.fin p) (JSNum.fin f)).barWidth).isFinite = true
    ∧ ((ViewportJS.zoomAt ⟨JSNum.fin o, JSNum.fin b, JSNum.fin s, JSNum.fin m, vc⟩
        (JSNum.fin p) (JSNum.fin f)).offsetIndex).isFinite = true := by
  have hws : max 1 (min m (b * f)) + s ≠ 0 := by
    have h1 : (1 : ℚ) ≤ max 1 (min m (b * f)) := le_max_left 1 _
    intro hzero
    linarith
  refine ⟨?_, ?_, ?_, ?_, ?_⟩
  · simp [ViewportJS.panBy, JSNum.mul, JSNum.div, JSNum.add, JSNum.sub, JSNum.neg,
      JSNum.jsmax]
  · simp only [ViewportJS.zoomAt, JSNum.mul, JSNum.jsmin, JSNum.jsmax, JSNum.sub,
      JSNum.neg, JSNum.add, JSNum.jsabs, JSNum.jslt, Bool.false_eq_true, if_false]
  · simp only [ViewportJS.zoomAt, JSNum.mul, JSNum.jsmin, JSNum.jsmax, JSNum.sub,
      JSNum.neg, JSNum.add, JSNum.jsabs, JSNum.jslt, Bool.false_eq_true, if_false]
    simp [JSNum.div, hbs, JSNum.add, JSNum.sub, JSNum.neg, JSNum.jsmax]
  · simp [ViewportJS.panBy, JSNum.mul, JSNum.div, hbs, JSNum.add, JSNum.sub, JSNum.neg,
      JSNum.jsmax, JSNum.isFinite]
  · constructor
    · simp only [ViewportJS.zoomAt, JSNum.mul, JSNum.jsmin, JSNum.jsmax, JSNum.sub,
        JSNum.neg, JSNum.add, JSNum.jsabs, JSNum.jslt, decide_eq_true_eq]
      split
      · rfl
      · rfl
    · simp only [ViewportJS.zoomAt, JSNum.mul, JSNum.jsmin, JSNum.jsmax, JSNum.sub,
        JSNum.neg, JSNum.add, JSNum.jsabs, JSNum.jslt, decide_eq_true_eq]
      split
      · rfl
      · simp [JSNum.div, hbs, hws, JSNum.add, JSNum.sub, JSNum.neg, JSNum.jsmax,
          JSNum.isFinite]

/-- C3 witness: the propagation and finiteness facts at the default state
(`offsetIndex 0, barWidth 6, spacing 1, maxBarWidth 20`), pivot 7, finite
delta 3 and finite factor 2. -/
theorem nonfinite_propagation_wit :
    (ViewportJS.panBy ⟨JSNum.fin 0, JSNum.fin 6, JSNum.fin 1, JSNum.fin 20, 200⟩
        JSNum.nan).offsetIndex = JSNum.nan
    ∧ (ViewportJS.zoomAt ⟨JSNum.fin 0, JSNum.fin 6, JSNum.fin 1, JSNum.fin 20, 200⟩
        (JSNum.fin 7) JSNum.nan).barWidth = JSNum.nan
    ∧ (ViewportJS.zoomAt ⟨JSNum.fin 0, JSNum.fin 6, JSNum.fin 1, JSNum.fin 20, 200⟩
        (JSNum.fin 7) JSNum.nan).offsetIndex = JSNum.nan
    ∧ ((ViewportJS.panBy ⟨JSNum.fin 0, JSNum.fin 6, JSNum.fin 1, JSNum.fin 20, 200⟩
        (JSNum.fin 3)).offsetIndex).isFinite = true
    ∧ ((ViewportJS.zoomAt ⟨JSNum.fin 0, JSNum.fin 6, JSNum.fin 1, JSNum.fin 20, 200⟩
        (JSNum.fin 7) (JSNum.fin 2)).barWidth).isFinite = true
    ∧ ((ViewportJS.zoomAt ⟨JSNum.fin 0, JSNum.fin 6, JSNum.fin 1, JSNum.fin 20, 200⟩
        (JSNum.fin 7) (JSNum.fin 2)).offsetIndex).isFinite = true :=
  nonfinite_propagation 0 6 1 20 200 7 3 2 (by norm_num) (by norm_num)

/-! ## C4: draw passes on short windows (Renderer.drawBars / drawGraph) -/

/-- The linear price-to-pixel transform shared by the draw passes. -/
def priceToY (top bottom minPrice maxPrice p : ℚ) : ℚ :=
  top + ((maxPrice - p) / (maxPrice - minPrice)) * (bottom - top)

/-- One quadratic curve segment emitted by `drawGraph`
(`quadraticCurveTo(cpx, cpy, x, y)`). -/
structure QuadSeg where
  cpx : ℚ
  cpy : ℚ
  x : ℚ
  y : ℚ
deriving DecidableEq, Repr

/-- One candlestick emitted by `drawBars`: wick line and body rectangle. -/
structure CandleDraw where
  x : ℚ
  wickTop : ℚ
  wickBottom : ℚ
  bodyTop : ℚ
  bodyHeight : ℚ
  bull : Bool
deriving DecidableEq, Repr

/-- The loop of `Renderer.drawBars` (renderer.ts lines 144-169): for each of
`visibleCount` slots, look up `bars[startIndex + i]`; a missing bar breaks
the loop, an existing bar is drawn. -/
def drawBarsLoop (bars : List Bar) (startIndex : ℕ) (left top bottom minP maxP bw sp : ℚ) :
    ℕ → ℕ → List CandleDraw
  | _, 0 => []
  | i, Nat.succ n =>
      match bars[startIndex + i]? with
      | none => []
      | some bar =>
          let o := priceToY top bottom minP maxP bar.Open
          let c := priceToY top bottom minP maxP bar.Close
          { x := left + (i : ℚ) * (bw + sp)
            wickTop := priceToY top bottom minP maxP bar.High
            wickBottom := priceToY top bottom minP maxP bar.Low
            bodyTop := min o c
            bodyHeight := max 1 (max o c - min o c)
            bull := decide (bar.Open ≤ bar.Close) } ::
            drawBarsLoop bars startIndex left top bottom minP maxP bw sp (i + 1) n

/-- `Renderer.drawBars`. -/
def drawBars (bars : List Bar) (startIndex visibleCount : ℕ)
    (left top bottom minP maxP bw sp : ℚ) : List CandleDraw :=
  drawBarsLoop bars startIndex left top bottom minP maxP bw sp 0 visibleCount

/-- The loop of `Renderer.drawGraph` (renderer.ts lines 196-211): emits one
quadratic segment per pair of consecutive bars, breaking when either is
missing. -/
def drawGraphLoop (bars : List Bar) (startIndex : ℕ) (left top bottom minP maxP bw sp : ℚ) :
    ℕ → ℕ → List QuadSeg
  | _, 0 => []
  | i, Nat.succ n =>
      match bars[startIndex + i]?, bars[startIndex + i + 1]? with
      | some bar, some nextBar =>
          let x := left + (i : ℚ) * (bw + sp)
          let nextX := left + ((i : ℚ) + 1) * (bw + sp)
          let close := priceToY top bottom minP maxP bar.Close
          let nextClose := priceToY top bottom minP maxP nextBar.Close
          { cpx := x + bw / 2
            cpy := close
            x := (x + nextX + bw) / 2
            y := (close + nextClose) / 2 } ::
            drawGraphLoop bars startIndex left top bottom minP maxP bw sp (i + 1) n
      | _, _ => []

/-- `Renderer.drawGraph` (renderer.ts lines 185-216).  Before its guarded
loop it dereferences `bars[startIndex + 0].Close` with no existence check;
when that bar is missing the JavaScript dereference of `undefined` throws a
`TypeError`, modelled here as `none`. -/
def drawGraph (bars : List Bar) (startIndex visibleCount : ℕ)
    (left top bottom minP maxP bw sp : ℚ) : Option ((ℚ × ℚ) × List QuadSeg) :=
  match bars[startIndex]? with
  | none => none
  | some startBar =>
      some ((left + bw / 2, priceToY top bottom minP maxP startBar.Close),
        drawGraphLoop bars startIndex left top bottom minP maxP bw sp 0 visibleCount)

/-- C4 (code evaluated at the failing input): on an empty bar array
`drawBars` stops early and draws nothing, but `drawGraph` fails (throws)
instead of stopping early — and it fails whenever `startIndex` is past the
end of the bar array. -/
theorem drawGraph_empty_bars_throws :
    drawGraph [] 0 5 0 0 100 0 1 6 1 = none
    ∧ drawBars [] 0 5 0 0 100 0 1 6 1 = []
    ∧ (∀ (bars : List Bar) (s c : ℕ) (L T B mn mx bw sp : ℚ),
        bars.length ≤ s → drawGraph bars s c L T B mn mx bw sp = none) := by
  refine ⟨rfl, rfl, ?_⟩
  intro bars s c L T B mn mx bw sp h
  unfold drawGraph
  rw [List.getElem?_eq_none h]

end ForexChart
